import Mathlib

/-!
Verification development for the ui-ux-pro-mcp ranking core: a shallow
embedding in Lean of the BM25 search engine (src/search/bm25.ts), the
weighted keyword classifiers, the query validator/expander, the platform
boost rerank and the multi-domain merge strategy of the unified search
(src/tools/handlers.ts), together with theorems checking the specification
claims against these definitions.

Modelling conventions:
- JS strings are Lean `String`s, usually manipulated as their `List Char`.
- JS numbers are modelled as `ℚ` for the classifier/limit arithmetic the
  source performs on decimal literals, and as `ℝ` for BM25 scores (which
  use the natural logarithm).
- `Array.prototype.sort` with comparator `(a, b) => k b - k a` is a stable
  sort placing larger keys first; since a stable sort's output is uniquely
  determined by the comparator, it is embedded as `List.insertionSort`
  with the non-strict relation `fun a b => k b ≤ k a`, which is stable in
  the same sense (ties keep input order).
- `String.prototype.split(/\s+/)` produces the maximal whitespace-free
  segments plus empty segments at the edges; wherever the source filters
  the pieces by length afterwards, this is embedded as `List.splitOnP`
  followed by the same filter (the extra empty pieces are removed by it).
-/

/-- JS regex word-character class `\w` = `[A-Za-z0-9_]` (ASCII). -/
def isWordChar (c : Char) : Bool := c.isAlphanum || c = '_'

/-- Whitespace, for the JS regex `\s` and `String.trim`. -/
def isWs (c : Char) : Bool := c.isWhitespace

/-- JS `String.toLowerCase` on the characters of a string (ASCII range). -/
def lowerChars (l : List Char) : List Char := l.map Char.toLower

/-- JS `String.trim` on a character list. -/
def trimChars (l : List Char) : List Char :=
  ((l.dropWhile isWs).reverse.dropWhile isWs).reverse

/-- The substring test at one position: `k` occurs in `q` starting at `i`. -/
def matchAt (q k : List Char) (i : ℕ) : Bool := (q.drop i).take k.length = k

/-- JS `String.includes`: `k` occurs somewhere in `q`. -/
def containsSub (q k : List Char) : Bool :=
  (List.range (q.length + 1)).any fun i => matchAt q k i

/-- JS `String.indexOf`: position of the first occurrence of `k` in `q`. -/
def indexOfSub (q k : List Char) : Option ℕ :=
  (List.range (q.length + 1)).find? fun i => matchAt q k i

/-- Whether position `j` of `q` holds a word character (out of range: no). -/
def wordAt (q : List Char) (j : ℕ) : Bool := isWordChar (q.getD j ' ')

/-- The two `\b` conditions of the regex `\bKEYWORD\b` for a match of `k` at
position `i` of `q`: word-character-ness changes at both edges of the match
(string edges count as non-word). -/
def boundaryAt (q k : List Char) (i : ℕ) : Bool :=
  let prevWord := if i = 0 then false else wordAt q (i - 1)
  let firstWord := match k.head? with | some c => isWordChar c | none => false
  let lastWord := match k.getLast? with | some c => isWordChar c | none => false
  let nextWord := wordAt q (i + k.length)
  (prevWord != firstWord) && (lastWord != nextWord)

/-- matchesKeyword (handlers.ts 316-327): a multi-word keyword matches as a
plain substring; a single-word keyword must match with word boundaries on
both sides (the source builds `\bESCAPED\b` from the escaped keyword, which
on the already-lowercased query is exactly this boundary condition). -/
def matchesKeyword (query : List Char) (keyword : String) : Bool :=
  if keyword.data.any fun c => c = ' ' then containsSub query keyword.data
  else (List.range (query.length + 1)).any fun i =>
    matchAt query keyword.data i && boundaryAt query keyword.data i

/-- BM25.tokenize (bm25.ts 34-40): lowercase, replace each character that is
neither a word character nor whitespace by a space, split on whitespace and
keep only tokens longer than one character. -/
def tokenize (s : String) : List (List Char) :=
  let replaced := (lowerChars s.data).map fun c => if isWordChar c || isWs c then c else ' '
  (replaced.splitOnP isWs).filter fun t => 1 < t.length

/-- A BM25 document: id and searchable content (the `data` payload plays no
role in scoring and is omitted). -/
structure Doc where
  id : String
  content : String

/-- The cached tokenized contents of the collection (bm25.ts constructor). -/
def docTokens (docs : List Doc) : List (List (List Char)) :=
  docs.map fun d => tokenize d.content

/-- calculateDocFrequencies (bm25.ts 42-50): the number of documents that
contain the term at least once. -/
def docFreq (docs : List Doc) (t : List Char) : ℕ :=
  (docTokens docs).countP fun toks => t ∈ toks

/-- calculateAvgDocLength (bm25.ts 52-63): the average tokenized length,
set to 1 for an empty collection and floored to 1 when it comes out zero. -/
def avgDocLength (docs : List Doc) : ℚ :=
  if docs.isEmpty then 1
  else
    let total : ℚ := ((docTokens docs).map fun toks => (toks.length : ℚ)).sum
    let avg := total / (docs.length : ℚ)
    if avg = 0 then 1 else avg

/-- idf (bm25.ts 65-69). -/
noncomputable def idf (docs : List Doc) (t : List Char) : ℝ :=
  Real.log (((docs.length : ℝ) - (docFreq docs t : ℝ) + 0.5) / ((docFreq docs t : ℝ) + 0.5) + 1)

/-- Term frequency of `t` in one tokenized document (the termFrequencies map
of bm25.ts 76-80). -/
def termFreq (toks : List (List Char)) (t : List Char) : ℕ := toks.count t

/-- score (bm25.ts 71-94): the BM25 score of document `i` for the given query
tokens, with the fixed parameters k1 = 1.5 and b = 0.75. -/
noncomputable def scoreDoc (docs : List Doc) (queryTokens : List (List Char)) (i : ℕ) : ℝ :=
  let dToks := (docTokens docs).getD i []
  let docLength : ℝ := dToks.length
  queryTokens.foldl
    (fun acc term =>
      let tf := termFreq dToks term
      if tf = 0 then acc
      else
        acc + idf docs term *
          ((tf : ℝ) * (1.5 + 1) /
            ((tf : ℝ) + 1.5 * (1 - 0.75 + 0.75 * (docLength / (avgDocLength docs : ℝ))))))
    0

/-- One entry of a search result list, enriched with the index the document
has in the collection (the source's SearchResult keeps the document and the
score; the index is the position `results.map((doc, index) => ...)` iterates
over, kept here to state the tie-breaking order). -/
structure ScoredResult where
  document : Doc
  docIndex : ℕ
  score : ℝ

/-- The scored result list of search (bm25.ts 99-102): every document paired
with its score for the tokenized query, in collection order. -/
noncomputable def scoredList (docs : List Doc) (query : String) : List ScoredResult :=
  (List.range docs.length).map fun i =>
    ScoredResult.mk (docs.getD i ⟨"", ""⟩) i (scoreDoc docs (tokenize query) i)

/-- JS Array.prototype.slice(0, endIdx): a nonnegative end index keeps the
first endIdx elements (clamped at the length); a negative end index counts
from the end of the array, dropping the last |endIdx| elements (clamped at
0). Either way the result is a List.take of a length computed from endIdx. -/
def jsSliceTo {β : Type} (l : List β) (endIdx : ℤ) : List β :=
  l.take (if 0 ≤ endIdx then endIdx.toNat else ((l.length : ℤ) + endIdx).toNat)

/-- search (bm25.ts 96-108): score every document, keep the strictly positive
scores, sort by score descending (stable) and truncate with
slice(0, maxResults); maxResults is an arbitrary JS number, so a negative
value makes slice count from the end of the sorted list. -/
noncomputable def bmSearch (docs : List Doc) (query : String) (maxResults : ℤ) :
    List ScoredResult :=
  jsSliceTo (((scoredList docs query).filter fun r => 0 < r.score).insertionSort
      fun a b => b.score ≤ a.score) maxResults

/-! Stability of the embedded JS sort. `List.orderedInsert r x l` places `x`
before the first element `y` with `r x y`; when `r` is the non-strict
comparator relation, inserting an input-earlier element into the sorted list
of input-later elements keeps ties in input order. The lemma is stated
generically: `T` is the input order (all elements of `l` are `T`-after `x`)
and `S` the strengthened sortedness relation to be established. -/
theorem orderedInsert_pairwise {α : Type} (r : α → α → Prop) [DecidableRel r]
    (S T : α → α → Prop)
    (h1 : ∀ x y, T x y → r x y → S x y)
    (h2 : ∀ x y, T x y → ¬ r x y → S y x)
    (h3 : ∀ x y z, T x y → T x z → r x y → S y z → S x z)
    (x : α) (l : List α) (hT : ∀ y ∈ l, T x y) (hl : l.Pairwise S) :
    (l.orderedInsert r x).Pairwise S := by
  induction l with
  | nil => simp
  | cons y ys ih =>
    rw [List.orderedInsert]
    rcases List.pairwise_cons.1 hl with ⟨hy, hys⟩
    by_cases hxy : r x y
    · rw [if_pos hxy]
      refine List.pairwise_cons.2 ⟨?_, hl⟩
      intro z hz
      rcases List.mem_cons.1 hz with heq | hzys
      · exact heq ▸ h1 x y (hT y (by simp)) hxy
      · exact h3 x y z (hT y (by simp)) (hT z (by simp [hzys])) hxy (hy z hzys)
    · rw [if_neg hxy]
      refine List.pairwise_cons.2 ⟨?_, ?_⟩
      · intro z hz
        rcases (List.mem_orderedInsert r).1 hz with heq | hzys
        · exact heq ▸ h2 x y (hT y (by simp)) hxy
        · exact hy z hzys
      · exact ih (fun z hz => hT z (by simp [hz])) hys

/-- Pairwise sortedness-with-stability of the embedded JS sort: if the input
is `T`-increasing and the comparator `r`, the input order `T` and the target
relation `S` interact as below, the sorted output is `S`-pairwise. -/
theorem insertionSort_pairwise {α : Type} (r : α → α → Prop) [DecidableRel r]
    (S T : α → α → Prop)
    (h1 : ∀ x y, T x y → r x y → S x y)
    (h2 : ∀ x y, T x y → ¬ r x y → S y x)
    (h3 : ∀ x y z, T x y → T x z → r x y → S y z → S x z)
    (l : List α) (hl : l.Pairwise T) :
    (l.insertionSort r).Pairwise S := by
  induction l with
  | nil => simp
  | cons x xs ih =>
    rw [List.insertionSort]
    rcases List.pairwise_cons.1 hl with ⟨hx, hxs⟩
    exact orderedInsert_pairwise r S T h1 h2 h3 x _
      (fun y hy => hx y ((List.mem_insertionSort r).1 hy)) (ih hxs)

/-- The accumulating conditional fold of BM25.score is the sum of the
per-term contributions over the terms passing the non-zero test. -/
theorem foldl_score_sum (g : List Char → ℝ) (p : List Char → ℕ) :
    ∀ (l : List (List Char)) (a : ℝ),
      l.foldl (fun acc term => if p term = 0 then acc else acc + g term) a
        = a + ((l.filter fun term => p term ≠ 0).map g).sum := by
  intro l
  induction l with
  | nil => simp
  | cons t ts ih =>
    intro a
    by_cases h : p t = 0 <;> simp [h, ih, add_assoc]

/-- The per-term contribution as the specification writes it:
`idf(term) * (tf * (k1+1)) / (tf + k1 * (1 - b + b * docLen/avgDocLen))`
with `idf(term) = ln((N - df(term) + 0.5) / (df(term) + 0.5) + 1)`,
`k1 = 1.5`, `b = 0.75`, `N` the document count, `tf` the term frequency in
document `i` and `docLen` its tokenized length. -/
noncomputable def claimContribution (docs : List Doc) (i : ℕ) (term : List Char) : ℝ :=
  Real.log (((docs.length : ℝ) - (docFreq docs term : ℝ) + 0.5) /
      ((docFreq docs term : ℝ) + 0.5) + 1) *
    ((termFreq ((docTokens docs).getD i []) term : ℝ) * (1.5 + 1) /
      ((termFreq ((docTokens docs).getD i []) term : ℝ) +
        1.5 * (1 - 0.75 + 0.75 *
          ((((docTokens docs).getD i []).length : ℝ) / (avgDocLength docs : ℝ)))))

/-- C1: for every BM25 index built over N documents and every (query,
document) pair, the computed score is the sum, over the query terms whose
term frequency in the document is non-zero, of the claimed contribution
formula (see claimContribution, with fixed k1 = 1.5 and b = 0.75); query
terms with tf = 0 contribute exactly 0, so dropping them from the query
leaves the score unchanged. -/
theorem bm25_score_formula (docs : List Doc) (queryTokens : List (List Char)) (i : ℕ) :
    scoreDoc docs queryTokens i =
      ((queryTokens.filter fun term =>
          termFreq ((docTokens docs).getD i []) term ≠ 0).map
        (claimContribution docs i)).sum
    ∧ scoreDoc docs queryTokens i =
        scoreDoc docs
          (queryTokens.filter fun term =>
            termFreq ((docTokens docs).getD i []) term ≠ 0) i := by
  have key : ∀ qts : List (List Char),
      scoreDoc docs qts i =
        ((qts.filter fun term =>
            termFreq ((docTokens docs).getD i []) term ≠ 0).map
          (claimContribution docs i)).sum := by
    intro qts
    rw [scoreDoc]
    have h := foldl_score_sum (claimContribution docs i)
      (fun term => termFreq ((docTokens docs).getD i []) term) qts 0
    rw [zero_add] at h
    exact h
  refine ⟨key queryTokens, ?_⟩
  rw [key queryTokens, key (queryTokens.filter fun term =>
    termFreq ((docTokens docs).getD i []) term ≠ 0)]
  rw [List.filter_filter]
  simp

/-- C2 (amended: the length bound holds for nonnegative maxResults; for a
negative maxResults JS slice(0, n) counts the end from the back of the
array, and the bound length ≤ n is impossible since the length is
nonnegative — see the counterexample theorem): for every integer n,
bmSearch returns only strictly positive scores, sorted by score descending
with ties kept in original document order, with at most n of them whenever
0 ≤ n; a query with no tokens, or one under which no document scores
positive, yields the empty result; and the average document length the
score denominator divides by is strictly positive (no division by zero). -/
theorem bm25_search_contract (docs : List Doc) (query : String) (n : ℤ) :
    (∀ r ∈ bmSearch docs query n, 0 < r.score)
    ∧ (0 ≤ n → ((bmSearch docs query n).length : ℤ) ≤ n)
    ∧ (bmSearch docs query n).Pairwise
        (fun a b => b.score < a.score ∨ (a.score = b.score ∧ a.docIndex < b.docIndex))
    ∧ (tokenize query = [] → bmSearch docs query n = [])
    ∧ ((∀ i < docs.length, scoreDoc docs (tokenize query) i ≤ 0) → bmSearch docs query n = [])
    ∧ 0 < avgDocLength docs := by
  refine ⟨?_, ?_, ?_, ?_, ?_, ?_⟩
  · intro r hr
    have hr2 : r ∈ (scoredList docs query).filter fun r => 0 < r.score := by
      have := List.mem_of_mem_take hr
      exact (List.mem_insertionSort _).1 this
    have := (List.mem_filter.1 hr2).2
    exact of_decide_eq_true this
  · intro hn
    have h1 : (bmSearch docs query n).length ≤ n.toNat := by
      rw [bmSearch, jsSliceTo, if_pos hn, List.length_take]
      exact min_le_left _ _
    omega
  · have hL : (scoredList docs query).Pairwise fun a b => a.docIndex < b.docIndex := by
      rw [scoredList, List.pairwise_map]
      exact List.pairwise_lt_range docs.length
    have hF : (((scoredList docs query).filter fun r => 0 < r.score).Pairwise
        fun a b => a.docIndex < b.docIndex) :=
      hL.sublist (List.filter_sublist _)
    have hS := insertionSort_pairwise (fun a b : ScoredResult => b.score ≤ a.score)
      (fun a b => b.score < a.score ∨ (a.score = b.score ∧ a.docIndex < b.docIndex))
      (fun a b => a.docIndex < b.docIndex)
      (by
        intro x y hT hr
        rcases lt_or_eq_of_le hr with h | h
        · exact Or.inl h
        · exact Or.inr ⟨h.symm, hT⟩)
      (by
        intro x y hT hr
        exact Or.inl (lt_of_not_le hr))
      (by
        intro x y z hTy hTz hr hS
        rcases hS with h | h
        · exact Or.inl (lt_of_lt_of_le h hr)
        · rcases lt_or_eq_of_le (h.1 ▸ hr) with h2 | h2
          · exact Or.inl h2
          · exact Or.inr ⟨h2.symm, hTz⟩)
      _ hF
    rw [bmSearch, jsSliceTo]
    exact hS.sublist (List.take_sublist _ _)
  · intro h
    rw [bmSearch]
    have : ((scoredList docs query).filter fun r => 0 < r.score) = [] := by
      rw [List.filter_eq_nil_iff]
      intro r hr
      rw [scoredList] at hr
      rcases List.mem_map.1 hr with ⟨i, hi, rfl⟩
      simp only [decide_eq_true_eq, not_lt]
      rw [h]
      exact le_of_eq rfl
    rw [this]
    simp [jsSliceTo]
  · intro h
    rw [bmSearch]
    have : ((scoredList docs query).filter fun r => 0 < r.score) = [] := by
      rw [List.filter_eq_nil_iff]
      intro r hr
      rw [scoredList] at hr
      rcases List.mem_map.1 hr with ⟨i, hi, rfl⟩
      simp only [decide_eq_true_eq, not_lt]
      exact h i (List.mem_range.1 hi)
    rw [this]
    simp [jsSliceTo]
  · rw [avgDocLength]
    by_cases hd : docs.isEmpty
    · rw [if_pos hd]
      norm_num
    · rw [if_neg hd]
      have hlen : 0 < (docs.length : ℚ) := by
        have : docs ≠ [] := fun hc => hd (by simp [hc])
        have : 0 < docs.length := List.length_pos.2 this
        exact_mod_cast this
      have htot : 0 ≤ ((docTokens docs).map fun toks => (toks.length : ℚ)).sum := by
        apply List.sum_nonneg
        intro x hx
        rcases List.mem_map.1 hx with ⟨toks, _, rfl⟩
        positivity
      by_cases hz : (((docTokens docs).map fun toks => (toks.length : ℚ)).sum / (docs.length : ℚ)) = 0
      · rw [if_pos hz]
        norm_num
      · rw [if_neg hz]
        rcases lt_or_eq_of_le (div_nonneg htot (le_of_lt hlen)) with h | h
        · exact h
        · exact absurd h.symm hz

/-- C2 counterexample: the claimed bound length ≤ maxResults fails for a
negative maxResults. JS slice(0, -1) counts the end index from the back of
the array, so the result length is never negative; already for an empty
collection and query, search returns the empty list (length 0) while the
claim demands length ≤ -1. -/
theorem bm25_search_negative_counterexample :
    ¬ (((bmSearch [] "" (-1)).length : ℤ) ≤ -1) := by
  have h : bmSearch [] "" (-1) = [] := rfl
  rw [h]
  decide

/-- A domain or stack match with confidence (handlers.ts DomainMatch). -/
structure DomainMatch where
  domain : String
  confidence : ℚ
deriving DecidableEq

/-- domainKeywordsWeighted (handlers.ts 41-198): per domain, the weighted
keyword signatures, in source order. -/
def domainKeywordsWeighted : List (String × List (String × ℚ)) :=
  [("color",
    [("color palette", 1.0), ("color scheme", 1.0), ("hex code", 0.95), ("palette", 0.9),
     ("color", 0.7), ("hex", 0.6), ("rgb", 0.5), ("#", 0.3)]),
   ("chart",
    [("chart type", 1.0), ("data visualization", 1.0), ("visualization", 0.9),
     ("chart", 0.85), ("graph", 0.8), ("pie chart", 0.95), ("bar chart", 0.95),
     ("scatter plot", 0.95), ("heatmap", 0.9), ("funnel", 0.7), ("trend", 0.5),
     ("bar", 0.4), ("pie", 0.4), ("scatter", 0.5)]),
   ("landing",
    [("landing page", 1.0), ("landing pattern", 1.0), ("hero section", 0.95),
     ("cta button", 0.9), ("conversion", 0.8), ("landing", 0.75), ("hero", 0.7),
     ("testimonial", 0.7), ("pricing section", 0.8), ("cta", 0.6), ("section", 0.3)]),
   ("product",
    [("product type", 1.0), ("saas design", 1.0), ("ecommerce design", 1.0),
     ("fintech", 0.9), ("healthcare", 0.85), ("saas", 0.8), ("ecommerce", 0.8),
     ("e-commerce", 0.8), ("gaming", 0.7), ("portfolio", 0.6), ("crypto", 0.7),
     ("dashboard", 0.6)]),
   ("prompt",
    [("ai prompt", 1.0), ("prompt template", 1.0), ("css snippet", 0.9),
     ("implementation checklist", 0.9), ("design system variable", 0.85),
     ("prompt", 0.7), ("checklist", 0.5), ("variable", 0.3)]),
   ("style",
    [("ui style", 1.0), ("design style", 1.0), ("glassmorphism", 0.95),
     ("neumorphism", 0.95), ("brutalism", 0.95), ("minimalism", 0.9), ("dark mode", 0.85),
     ("flat design", 0.9), ("aurora", 0.7), ("style", 0.5), ("design", 0.3), ("ui", 0.3)]),
   ("ux",
    [("ux guideline", 1.0), ("ux best practice", 1.0), ("usability", 0.9),
     ("accessibility", 0.9), ("wcag", 0.95), ("a11y", 0.9), ("ux", 0.75),
     ("user experience", 0.85), ("touch target", 0.8), ("scroll", 0.4),
     ("animation", 0.4), ("keyboard", 0.5), ("navigation", 0.4), ("mobile", 0.3)]),
   ("typography",
    [("font pairing", 1.0), ("typography", 0.9), ("google fonts", 0.85),
     ("font family", 0.85), ("heading font", 0.9), ("body font", 0.9), ("font", 0.6),
     ("serif", 0.5), ("sans-serif", 0.5), ("sans", 0.4), ("heading", 0.3)]),
   ("icons",
    [("lucide icon", 1.0), ("icon search", 1.0), ("lucide", 0.95), ("heroicons", 0.9),
     ("svg icon", 0.9), ("icons", 0.8), ("icon", 0.7), ("symbol", 0.4), ("glyph", 0.5),
     ("pictogram", 0.6)]),
   ("platform",
    [("ios guideline", 1.0), ("ios hig", 1.0), ("human interface", 0.95),
     ("apple design", 0.95), ("ios native", 0.9), ("ios pattern", 0.9),
     ("cupertino", 0.85), ("uikit", 0.85), ("ios color", 0.8), ("ios typography", 0.8),
     ("ios navigation", 0.8), ("safe area", 0.75), ("notch", 0.7),
     ("home indicator", 0.75), ("dynamic island", 0.8), ("android guideline", 1.0),
     ("material design", 1.0), ("material 3", 1.0), ("m3", 0.95), ("material you", 0.95),
     ("google design", 0.9), ("android native", 0.9), ("android pattern", 0.9),
     ("jetpack compose", 0.95), ("compose", 0.7), ("kotlin ui", 0.85),
     ("android hig", 0.9), ("android color", 0.8), ("android typography", 0.8),
     ("android navigation", 0.8), ("dynamic color", 0.85), ("tonal elevation", 0.8),
     ("material", 0.6), ("android", 0.6)])]

/-- stackKeywordsWeighted (handlers.ts 203-298). -/
def stackKeywordsWeighted : List (String × List (String × ℚ)) :=
  [("react",
    [("react hooks", 1.0), ("usestate", 0.95), ("useeffect", 0.95), ("usememo", 0.95),
     ("usecallback", 0.95), ("useref", 0.95), ("usecontext", 0.95), ("jsx", 0.85),
     ("react component", 0.9), ("react", 0.7)]),
   ("nextjs",
    [("next.js", 1.0), ("nextjs", 1.0), ("app router", 0.95), ("server components", 0.95),
     ("server actions", 0.95), ("getserversideprops", 0.95), ("getstaticprops", 0.95),
     ("pages router", 0.9), ("next/image", 0.9), ("next/link", 0.9)]),
   ("vue",
    [("vue 3", 1.0), ("vuejs", 1.0), ("vue.js", 1.0), ("composition api", 0.95),
     ("options api", 0.9), ("pinia", 0.95), ("vuex", 0.9), ("ref(", 0.85),
     ("reactive(", 0.85), ("vue", 0.6)]),
   ("svelte",
    [("sveltekit", 1.0), ("svelte 5", 1.0), ("svelte store", 0.95), ("$:", 0.7),
     ("svelte", 0.8)]),
   ("flutter",
    [("flutter widget", 1.0), ("flutter", 0.9), ("dart", 0.7), ("statefulwidget", 0.95),
     ("statelesswidget", 0.95), ("buildcontext", 0.9), ("widget", 0.4)]),
   ("swiftui",
    [("swiftui", 1.0), ("swift ui", 1.0), ("ios development", 0.8), ("@state", 0.9),
     ("@binding", 0.9), ("@observedobject", 0.9), ("ios", 0.5)]),
   ("react-native",
    [("react native", 1.0), ("react-native", 1.0), ("expo", 0.85), ("expo router", 0.95),
     ("native module", 0.8)]),
   ("html-tailwind",
    [("tailwind css", 1.0), ("tailwindcss", 1.0), ("tailwind", 0.85), ("utility css", 0.9),
     ("utility class", 0.8), ("utility-first", 0.9)]),
   ("shadcn",
    [("shadcn/ui", 1.0), ("shadcn", 0.95), ("radix ui", 0.85), ("radix", 0.7)]),
   ("nuxtjs",
    [("nuxt 3", 1.0), ("nuxtjs", 1.0), ("nuxt.js", 1.0), ("nuxt", 0.85),
     ("usefetch", 0.9), ("useasyncdata", 0.9)]),
   ("nuxt-ui",
    [("nuxt ui", 1.0), ("@nuxt/ui", 1.0)])]

/-- domainToTypeMap (handlers.ts 346-357). -/
def domainToTypeMap : List (String × String) :=
  [("color", "color"), ("chart", "chart"), ("landing", "landing"), ("product", "product"),
   ("prompt", "prompt"), ("style", "style"), ("ux", "ux-guideline"),
   ("typography", "typography"), ("icons", "icon"), ("platform", "platform")]

/-- The (maxScore, matchCount) accumulation over one category's keyword list
(handlers.ts 385-393 and 427-433). -/
def scanMaxCount (lowerQuery : List Char) (kws : List (String × ℚ)) : ℚ × ℕ :=
  kws.foldl
    (fun st kw => if matchesKeyword lowerQuery kw.1 then (max st.1 kw.2, st.2 + 1) else st)
    (0, 0)

/-- One category's final score (handlers.ts 395-400): none when no keyword
matched, otherwise the maximum matched weight plus the multi-match boost
min(0.1, (matchCount-1)*0.03), capped at 1. -/
def domainScoreOf (lowerQuery : List Char) (kws : List (String × ℚ)) : Option ℚ :=
  let st := scanMaxCount lowerQuery kws
  if 0 < st.2 then some (min 1 (st.1 + min 0.1 (((st.2 - 1 : ℕ) : ℚ) * 0.03))) else none

/-- detectDomains (handlers.ts 379-413): score every domain of the weighted
keyword table, keep the scored ones in table order, sort by confidence
descending (stable) and drop the entries below 0.2. -/
def detectDomains (query : String) : List DomainMatch :=
  let lowerQuery := lowerChars query.data
  let scored := domainKeywordsWeighted.foldl
    (fun acc p =>
      acc ++ (match domainScoreOf lowerQuery p.2 with
        | some s => [DomainMatch.mk p.1 s]
        | none => []))
    []
  (scored.insertionSort fun a b => b.confidence ≤ a.confidence).filter
    fun r => 0.2 ≤ r.confidence

/-- detectStacks (handlers.ts 420-449): the same scan over the stack table,
with the 0.3 confidence floor. -/
def detectStacks (query : String) : List DomainMatch :=
  let lowerQuery := lowerChars query.data
  let scored := stackKeywordsWeighted.foldl
    (fun acc p =>
      acc ++ (match domainScoreOf lowerQuery p.2 with
        | some s => [DomainMatch.mk p.1 s]
        | none => []))
    []
  (scored.insertionSort fun a b => b.confidence ≤ a.confidence).filter
    fun r => 0.3 ≤ r.confidence

/-- The claim's description of one category's score: the maximum weight over
the matched keywords, plus min(0.1, (matchCount-1)*0.03) when two or more
matched, capped at 1.0; none when no keyword matched. -/
def claimDomainScore (lowerQuery : List Char) (kws : List (String × ℚ)) : Option ℚ :=
  let matched := kws.filter fun kw => matchesKeyword lowerQuery kw.1
  if matched = [] then none
  else some (min 1 (((matched.map Prod.snd).foldl max 0) +
    (if 2 ≤ matched.length then min 0.1 (((matched.length - 1 : ℕ) : ℚ) * 0.03) else 0)))

/-- detectDomains as the claim words it: categories with at least one match
scored by claimDomainScore, sorted by score descending, entries below 0.2
discarded. -/
def detectDomainsClaim (query : String) : List DomainMatch :=
  let lowerQuery := lowerChars query.data
  let scored := domainKeywordsWeighted.filterMap fun p =>
    (claimDomainScore lowerQuery p.2).map fun s => DomainMatch.mk p.1 s
  (scored.insertionSort fun a b => b.confidence ≤ a.confidence).filter
    fun r => 0.2 ≤ r.confidence

/-- The scan fold computes the maximum matched weight and the match count. -/
theorem scanMaxCount_foldl (lq : List Char) :
    ∀ (kws : List (String × ℚ)) (st : ℚ × ℕ),
      kws.foldl
        (fun st kw => if matchesKeyword lq kw.1 then (max st.1 kw.2, st.2 + 1) else st) st
        = (((kws.filter fun kw => matchesKeyword lq kw.1).map Prod.snd).foldl max st.1,
           st.2 + (kws.filter fun kw => matchesKeyword lq kw.1).length) := by
  intro kws
  induction kws with
  | nil => intro st; simp
  | cons kw rest ih =>
    intro st
    by_cases h : matchesKeyword lq kw.1 = true
    · rw [List.foldl_cons, if_pos h, ih]
      simp [List.filter_cons, h, Nat.add_assoc, Nat.add_comm 1]
    · rw [List.foldl_cons, if_neg h, ih]
      simp [List.filter_cons, h]

/-- The per-category fold of detectDomains/detectStacks agrees with the
claim's description of the score. -/
theorem domainScoreOf_eq_claim (lq : List Char) (kws : List (String × ℚ)) :
    domainScoreOf lq kws = claimDomainScore lq kws := by
  rw [domainScoreOf, claimDomainScore, scanMaxCount, scanMaxCount_foldl lq kws (0, 0)]
  by_cases hm : (kws.filter fun kw => matchesKeyword lq kw.1) = []
  · simp [hm]
  · have hlen : 0 < (kws.filter fun kw => matchesKeyword lq kw.1).length :=
      List.length_pos.2 hm
    rw [if_neg hm]
    simp only [Nat.zero_add]
    rw [if_pos hlen]
    rcases Nat.lt_or_ge (kws.filter fun kw => matchesKeyword lq kw.1).length 2 with h2 | h2
    · have h1 : (kws.filter fun kw => matchesKeyword lq kw.1).length = 1 := by omega
      rw [if_neg (by omega), h1]
      norm_num
    · rw [if_pos h2]

/-- Folding list append over option-produced singletons is filterMap. -/
theorem foldl_opt_append {β γ : Type} (f : β → Option ℚ) (mk : β → ℚ → γ) :
    ∀ (l : List β) (acc : List γ),
      l.foldl (fun a x => a ++ (match f x with | some s => [mk x s] | none => [])) acc
        = acc ++ l.filterMap fun x => (f x).map (mk x) := by
  intro l
  induction l with
  | nil => intro acc; simp
  | cons x xs ih =>
    intro acc
    rw [List.foldl_cons, ih]
    cases hx : f x <;> simp [hx, List.filterMap_cons]

/-- C4: for every query, detectDomains assigns each category with at least
one matched keyword the maximum matched weight plus a multi-match boost of
min(0.1, (matchCount-1)*0.03) when two or more keywords matched, capped at
1.0; zero-match categories are omitted, the rest are sorted by score
descending, and scores below 0.2 are discarded — i.e. detectDomains equals
its claim-side description. -/
theorem detectDomains_eq_claim (query : String) :
    detectDomains query = detectDomainsClaim query := by
  rw [detectDomains, detectDomainsClaim]
  have hfun : (fun p : String × List (String × ℚ) =>
      (domainScoreOf (lowerChars query.data) p.2).map fun s => DomainMatch.mk p.1 s)
      = fun p =>
      (claimDomainScore (lowerChars query.data) p.2).map fun s => DomainMatch.mk p.1 s := by
    funext p
    rw [domainScoreOf_eq_claim]
  rw [foldl_opt_append (fun p => domainScoreOf (lowerChars query.data) p.2)
    (fun p s => DomainMatch.mk p.1 s) domainKeywordsWeighted []]
  rw [List.nil_append]
  rw [hfun]

section
attribute [local semireducible] Rat.ofScientific Rat.mul Rat.inv Rat.add Rat.sub

set_option maxRecDepth 20000 in
/-- C7: classifier keyword matching is word-boundary aware for single-word
keywords and substring-based for phrases: in "sidebar navigation" the chart
keyword "bar" does not match (it occurs only inside "sidebar") and no chart
domain is detected, while "bar chart comparison" matches "bar" at a word
boundary and detectDomains yields the chart domain. -/
theorem keyword_boundary_examples :
    matchesKeyword (lowerChars "sidebar navigation".data) "bar" = false
    ∧ (∀ m ∈ detectDomains "sidebar navigation", m.domain ≠ "chart")
    ∧ matchesKeyword (lowerChars "bar chart comparison".data) "bar" = true
    ∧ "chart" ∈ (detectDomains "bar chart comparison").map DomainMatch.domain :=
  ⟨by decide, by decide, by decide, by decide⟩

end

/-- PLATFORM_KEYWORDS (handlers.ts 1832-1954), in source order. -/
def platformKeywords : List (String × List (String × ℚ)) :=
  [("web",
    [("viewport", 0.7), ("responsive", 0.7), ("navbar", 0.7), ("header", 0.6),
     ("footer", 0.6), ("sidebar", 0.7), ("hero section", 0.8), ("mega menu", 0.8),
     ("breadcrumbs", 0.7), ("modal", 0.5), ("popup", 0.6), ("carousel", 0.6),
     ("hover states", 0.8), ("above the fold", 0.8), ("page", 0.4),
     ("sticky header", 0.8), ("multi-column", 0.7), ("css grid", 0.7),
     ("media queries", 0.8), ("hamburger menu", 0.6), ("seo", 0.8), ("lighthouse", 0.9),
     ("web vitals", 0.9), ("pwa", 0.8), ("progressive web app", 0.9),
     ("landing page", 0.7), ("website", 0.6), ("web app", 0.7), ("browser", 0.6)]),
   ("mobile-ios",
    [("tab bar", 0.8), ("navigation bar", 0.6), ("bottom sheet", 0.7),
     ("segmented control", 0.9), ("sf symbols", 1.0), ("swipe gesture", 0.6),
     ("edge swipe", 0.8), ("haptic feedback", 0.7), ("safe area", 0.9),
     ("navigationstack", 1.0), ("navigationlink", 1.0), ("hig", 0.9),
     ("human interface guidelines", 1.0), ("pull-to-refresh", 0.6), ("long-press", 0.5),
     ("touch target", 0.5), ("hit area", 0.6), ("dynamic type", 0.9), ("ios app", 1.0),
     ("iphone", 0.9), ("ipad", 0.9), ("uikit", 1.0), ("swiftui", 1.0), ("ios", 1.0),
     ("cupertino", 1.0)]),
   ("mobile-android",
    [("bottom navigation", 0.8), ("navigation drawer", 0.9), ("fab", 0.8),
     ("floating action button", 0.9), ("top app bar", 0.9), ("snackbar", 0.9),
     ("chips", 0.6), ("material 3", 1.0), ("material you", 1.0),
     ("adaptive layouts", 0.8), ("gesture navigation", 0.7), ("up arrow", 0.7),
     ("foldable", 0.9), ("multi-window", 0.8), ("dynamic color", 0.9), ("surface", 0.5),
     ("scaffold", 0.8), ("android app", 0.9), ("jetpack compose", 1.0),
     ("material design", 0.8), ("android", 0.7), ("kotlin", 0.8)]),
   ("cross-platform",
    [("react native", 1.0), ("flutter", 1.0), ("expo", 0.9),
     ("kotlin multiplatform", 1.0), ("cross-platform", 0.9), ("shared codebase", 0.9),
     ("hot reload", 0.8), ("platform-specific", 0.7), ("widget", 0.5),
     ("component tree", 0.6), ("declarative", 0.5), ("state management", 0.5),
     ("navigator", 0.6), ("stack navigator", 0.9), ("tab navigator", 0.9),
     ("drawer navigator", 0.9)]),
   ("mobile-generic",
    [("mobile", 0.6), ("app", 0.4), ("native", 0.6), ("touch", 0.5), ("gesture", 0.5),
     ("swipe", 0.5), ("bottom tabs", 0.7), ("screen", 0.4), ("view", 0.3),
     ("modal presentation", 0.6), ("push navigation", 0.7), ("pop navigation", 0.7),
     ("mobile ui", 0.8), ("mobile design", 0.8)])]

/-- FRAMEWORK_KEYWORDS (handlers.ts 1959-1976). -/
def frameworkKeywords : List (String × List (String × String)) :=
  [("mobile-ios", [("swiftui", "swiftui"), ("uikit", "uikit")]),
   ("mobile-android",
    [("jetpack compose", "jetpack-compose"), ("kotlin", "jetpack-compose"),
     ("material 3", "jetpack-compose")]),
   ("cross-platform",
    [("flutter", "flutter"), ("react native", "react-native"),
     ("react-native", "react-native"), ("expo", "react-native"),
     ("kotlin multiplatform", "kotlin-multiplatform")])]

/-- JS `Math.round(x * 100) / 100` (round half towards positive infinity). -/
def round2 (x : ℚ) : ℚ := (⌊x * 100 + 1/2⌋ : ℚ) / 100

/-- Result of detectPlatformIntent (handlers.ts PlatformIntentResult). -/
structure PlatformIntentResult where
  platform : String
  confidence : ℚ
  matchedKeywords : List String
  framework : Option String
deriving DecidableEq

/-- The (maxWeight, matchedKeywords) scan of one platform's keyword list
(handlers.ts 2002-2011). -/
def scanMaxKeywords (lowerQuery : List Char) (kws : List (String × ℚ)) :
    ℚ × List String :=
  kws.foldl
    (fun st kw =>
      if matchesKeyword lowerQuery kw.1 then (max st.1 kw.2, st.2 ++ [kw.1]) else st)
    (0, [])

/-- detectPlatformIntent (handlers.ts 1990-2062): score every platform with
the multi-match boost min(0.15, (count-1)*0.05) capped at 1, pick the first
strictly highest score, infer a framework from the matched platform's
framework keywords, and default to web with confidence 0.3 when nothing
scored; the final confidence is rounded to 2 decimals. -/
def detectPlatformIntent (query : String) : PlatformIntentResult :=
  let lowerQuery := lowerChars query.data
  let scores := platformKeywords.map fun p =>
    let st := scanMaxKeywords lowerQuery p.2
    if st.2 ≠ [] then
      (p.1, min 1 (st.1 + min 0.15 (((st.2.length - 1 : ℕ) : ℚ) * 0.05)), st.2)
    else (p.1, (0 : ℚ), ([] : List String))
  let best := scores.foldl (fun b s => if b.2.1 < s.2.1 then s else b)
    ("web", (0 : ℚ), ([] : List String))
  let framework := (frameworkKeywords.lookup best.1).bind fun fws =>
    fws.findSome? fun fw => if matchesKeyword lowerQuery fw.1 then some fw.2 else none
  if best.2.1 = 0 then ⟨"web", 0.3, [], none⟩
  else ⟨best.1, round2 best.2.1, best.2.2, framework⟩

/-- The initial value bounds a fold of max from below. -/
theorem le_foldl_max (l : List ℚ) (a : ℚ) : a ≤ l.foldl max a := by
  induction l generalizing a with
  | nil => simp
  | cons x xs ih => exact le_trans (le_max_left a x) (ih (max a x))

/-- A fold preserves a predicate that each step preserves, given that every
folded element satisfies its side condition. -/
theorem foldl_preserve_mem {β σ : Type} (P : σ → Prop) (Q : β → Prop) (f : σ → β → σ)
    (hf : ∀ s b, P s → Q b → P (f s b)) :
    ∀ (l : List β) (s : σ), P s → (∀ b ∈ l, Q b) → P (l.foldl f s) := by
  intro l
  induction l with
  | nil => intro s hs _; exact hs
  | cons x xs ih =>
    intro s hs hq
    exact ih (f s x) (hf s x hs (hq x (by simp))) fun b hb => hq b (by simp [hb])

/-- Any score domainScoreOf produces lies in [0, 1]. -/
theorem domainScoreOf_bounds (lq : List Char) (kws : List (String × ℚ)) (s : ℚ)
    (h : domainScoreOf lq kws = some s) : 0 ≤ s ∧ s ≤ 1 := by
  rw [domainScoreOf] at h
  by_cases h2 : 0 < (scanMaxCount lq kws).2
  · rw [if_pos h2] at h
    have hs := Option.some.inj h
    have hM : 0 ≤ (scanMaxCount lq kws).1 := by
      rw [scanMaxCount, scanMaxCount_foldl]
      exact le_foldl_max _ 0
    constructor
    · rw [← hs]
      refine le_min (by norm_num) (add_nonneg hM (le_min (by norm_num) ?_))
      positivity
    · rw [← hs]
      exact min_le_left _ _
  · rw [if_neg h2] at h
    exact absurd h (by simp)

/-- Rounding to two decimals keeps [0, 1]. -/
theorem round2_bounds (x : ℚ) (h0 : 0 ≤ x) (h1 : x ≤ 1) :
    0 ≤ round2 x ∧ round2 x ≤ 1 := by
  rw [round2]
  constructor
  · apply div_nonneg _ (by norm_num)
    have : (0 : ℤ) ≤ ⌊x * 100 + 1/2⌋ := Int.floor_nonneg.2 (by linarith)
    exact_mod_cast this
  · rw [div_le_one (by norm_num)]
    have : ⌊x * 100 + 1/2⌋ < 101 := by
      rw [Int.floor_lt]
      push_cast
      linarith
    have h100 : ⌊x * 100 + 1/2⌋ ≤ 100 := by omega
    exact_mod_cast h100

/-- C9: every confidence produced by detectDomains, detectStacks or
detectPlatformIntent lies in the closed interval [0, 1]; the multi-match
boosts never push a score past 1.0. -/
theorem classifier_confidence_bounds (query : String) :
    (∀ m ∈ detectDomains query, 0 ≤ m.confidence ∧ m.confidence ≤ 1)
    ∧ (∀ m ∈ detectStacks query, 0 ≤ m.confidence ∧ m.confidence ≤ 1)
    ∧ (0 ≤ (detectPlatformIntent query).confidence
        ∧ (detectPlatformIntent query).confidence ≤ 1) := by
  have hscored : ∀ (table : List (String × List (String × ℚ))) (m : DomainMatch),
      m ∈ table.foldl
        (fun acc p =>
          acc ++ (match domainScoreOf (lowerChars query.data) p.2 with
            | some s => [DomainMatch.mk p.1 s]
            | none => []))
        [] → 0 ≤ m.confidence ∧ m.confidence ≤ 1 := by
    intro table m hm
    rw [foldl_opt_append (fun p => domainScoreOf (lowerChars query.data) p.2)
      (fun p s => DomainMatch.mk p.1 s) table [], List.nil_append] at hm
    rcases List.mem_filterMap.1 hm with ⟨p, _, heq⟩
    rcases Option.map_eq_some'.1 heq with ⟨s, hs, hmk⟩
    have : m.confidence = s := by rw [← hmk]
    rw [this]
    exact domainScoreOf_bounds _ _ _ hs
  refine ⟨?_, ?_, ?_⟩
  · intro m hm
    rw [detectDomains] at hm
    have hm2 := (List.mem_filter.1 hm).1
    exact hscored domainKeywordsWeighted m ((List.mem_insertionSort _).1 hm2)
  · intro m hm
    rw [detectStacks] at hm
    have hm2 := (List.mem_filter.1 hm).1
    exact hscored stackKeywordsWeighted m ((List.mem_insertionSort _).1 hm2)
  · rw [detectPlatformIntent]
    have hscan : ∀ kws : List (String × ℚ),
        0 ≤ (scanMaxKeywords (lowerChars query.data) kws).1 := by
      intro kws
      rw [scanMaxKeywords]
      exact foldl_preserve_mem (fun st : ℚ × List String => 0 ≤ st.1) (fun _ => True)
        _ (by
          intro st kw hst _
          by_cases h : matchesKeyword (lowerChars query.data) kw.1 = true
          · rw [if_pos h]
            exact le_trans hst (le_max_left _ _)
          · rw [if_neg h]
            exact hst)
        kws (0, []) (by norm_num) (by simp)
    have hbest : 0 ≤ ((platformKeywords.map fun p =>
          let st := scanMaxKeywords (lowerChars query.data) p.2
          if st.2 ≠ [] then
            (p.1, min 1 (st.1 + min 0.15 (((st.2.length - 1 : ℕ) : ℚ) * 0.05)), st.2)
          else (p.1, (0 : ℚ), ([] : List String))).foldl
          (fun b s => if b.2.1 < s.2.1 then s else b)
          ("web", (0 : ℚ), ([] : List String))).2.1
        ∧ ((platformKeywords.map fun p =>
          let st := scanMaxKeywords (lowerChars query.data) p.2
          if st.2 ≠ [] then
            (p.1, min 1 (st.1 + min 0.15 (((st.2.length - 1 : ℕ) : ℚ) * 0.05)), st.2)
          else (p.1, (0 : ℚ), ([] : List String))).foldl
          (fun b s => if b.2.1 < s.2.1 then s else b)
          ("web", (0 : ℚ), ([] : List String))).2.1 ≤ 1 := by
      refine foldl_preserve_mem
        (fun t : String × ℚ × List String => 0 ≤ t.2.1 ∧ t.2.1 ≤ 1)
        (fun t : String × ℚ × List String => 0 ≤ t.2.1 ∧ t.2.1 ≤ 1)
        _ ?_ _ _ (by norm_num) ?_
      · intro s b hs hb
        by_cases h : s.2.1 < b.2.1
        · rw [if_pos h]; exact hb
        · rw [if_neg h]; exact hs
      · intro b hb
        rcases List.mem_map.1 hb with ⟨p, _, heq⟩
        rw [← heq]
        by_cases h : (scanMaxKeywords (lowerChars query.data) p.2).2 ≠ []
        · simp only [if_pos h]
          constructor
          · refine le_min (by norm_num) (add_nonneg (hscan p.2)
              (le_min (by norm_num) ?_))
            positivity
          · exact min_le_left _ _
        · simp only [if_neg h]
          norm_num
    by_cases hz : ((platformKeywords.map fun p =>
        let st := scanMaxKeywords (lowerChars query.data) p.2
        if st.2 ≠ [] then
          (p.1, min 1 (st.1 + min 0.15 (((st.2.length - 1 : ℕ) : ℚ) * 0.05)), st.2)
        else (p.1, (0 : ℚ), ([] : List String))).foldl
        (fun b s => if b.2.1 < s.2.1 then s else b)
        ("web", (0 : ℚ), ([] : List String))).2.1 = 0
    · rw [if_pos hz]
      norm_num
    · rw [if_neg hz]
      exact round2_bounds _ hbest.1 hbest.2

/-- PAGE_INTENT_KEYWORDS (handlers.ts 1700-1723): per intent, keyword groups
(synonym lists) with weights, in source order. -/
def pageIntentKeywords : List (String × List (List String × ℚ)) :=
  [("landing",
    [(["landing page"], 1.0), (["landing"], 0.95), (["homepage", "home page"], 0.9),
     (["website", "web site"], 0.85), (["hero"], 0.8), (["cta", "call to action"], 0.75),
     (["site"], 0.7), (["web"], 0.6)]),
   ("dashboard",
    [(["dashboard"], 1.0), (["admin panel", "admin dashboard"], 0.95),
     (["analytics"], 0.9), (["metrics"], 0.85), (["kpi", "kpis"], 0.8),
     (["admin"], 0.75), (["panel"], 0.7)]),
   ("page", [(["page"], 0.6)])]

/-- One phrase hit of classifyPageIntent phase 1 (handlers.ts 1742-1756). -/
structure PhraseMatch where
  phrase : String
  intent : String
  weight : ℚ
  position : ℕ
deriving DecidableEq

/-- Phase 1 of classifyPageIntent: every multi-word keyword of the table that
occurs in the query, with its first occurrence position. -/
def phraseMatches (lq : List Char) : List PhraseMatch :=
  pageIntentKeywords.flatMap fun ip =>
    ip.2.flatMap fun g =>
      g.1.filterMap fun kw =>
        if kw.data.any fun c => c = ' ' then
          (indexOfSub lq kw.data).map fun pos => PhraseMatch.mk kw ip.1 g.2 pos
        else none

/-- The phase-1 sort (handlers.ts 1761): by position ascending, ties by
weight descending, stable. -/
def sortedPhraseMatches (lq : List Char) : List PhraseMatch :=
  (phraseMatches lq).insertionSort fun a b =>
    a.position < b.position ∨ (a.position = b.position ∧ b.weight ≤ a.weight)

/-- The word position of a character position (handlers.ts 1765): the number
of whitespace-separated words before it. -/
def wordPosition (lq : List Char) (pos : ℕ) : ℕ :=
  (((lq.take pos).splitOnP isWs).filter fun w => w ≠ []).length

/-- Result of classifyPageIntent (handlers.ts PageIntentResult). -/
structure PageIntentResult where
  intent : String
  confidence : ℚ
  matchedKeyword : Option String
  position : ℤ
  warnings : List String
deriving DecidableEq

/-- Phase 2 of classifyPageIntent (handlers.ts 1779-1802): scan tokens left
to right, and for each token the table in order, for a single-word keyword
equal to the token with weight at least 0.6. -/
def phase2Scan (tokens : List (List Char)) : Option (String × String × ℚ × ℕ) :=
  tokens.enum.findSome? fun it =>
    pageIntentKeywords.findSome? fun ip =>
      ip.2.findSome? fun g =>
        g.1.findSome? fun kw =>
          if (kw.data.any fun c => c = ' ') = false ∧ it.2 = kw.data ∧ (0.6 : ℚ) ≤ g.2
          then some (ip.1, kw, g.2, it.1) else none

/-- classifyPageIntent (handlers.ts 1737-1812): phrase matches first (best =
earliest position, ties by higher weight), single-word scan only when no
phrase matched, confidence = weight minus min(0.3, wordPosition*0.05)
floored at 0.3 and rounded to 2 decimals, unknown with a warning when
nothing matched. -/
def classifyPageIntent (query : String) : PageIntentResult :=
  let lq := trimChars (lowerChars query.data)
  match (sortedPhraseMatches lq).head? with
  | some best =>
      ⟨best.intent,
       round2 (max 0.3 (best.weight -
         min 0.3 ((wordPosition lq best.position : ℚ) * 0.05))),
       some best.phrase, (wordPosition lq best.position : ℤ), []⟩
  | none =>
      match phase2Scan ((lq.splitOnP isWs).filter fun t => t ≠ []) with
      | some r =>
          ⟨r.1, round2 (max 0.3 (r.2.2.1 - min 0.3 ((r.2.2.2 : ℚ) * 0.05))),
           some r.2.1, (r.2.2.2 : ℤ), []⟩
      | none => ⟨"unknown", 0, none, -1, ["No page intent keywords detected in query"]⟩

/-- The phase-1 comparator relation is respected by the head of the sorted
phrase-match list: the head is an earliest-position match, with ties broken
by higher weight. -/
theorem sortedPhraseMatches_head_min (lq : List Char) (best : PhraseMatch)
    (rest : List PhraseMatch) (h : sortedPhraseMatches lq = best :: rest) :
    best ∈ phraseMatches lq
    ∧ ∀ m ∈ phraseMatches lq,
        best.position ≤ m.position
        ∧ (m.position = best.position → m.weight ≤ best.weight) := by
  have hmemb : best ∈ phraseMatches lq := by
    have : best ∈ sortedPhraseMatches lq := by rw [h]; simp
    rw [sortedPhraseMatches] at this
    exact (List.mem_insertionSort _).1 this
  refine ⟨hmemb, ?_⟩
  have hpair : (sortedPhraseMatches lq).Pairwise
      (fun a b : PhraseMatch =>
        a.position < b.position ∨ (a.position = b.position ∧ b.weight ≤ a.weight)) := by
    rw [sortedPhraseMatches]
    refine insertionSort_pairwise _ _ (fun _ _ => True) ?_ ?_ ?_ _ ?_
    · intro x y _ hr
      exact hr
    · intro x y _ hr
      rcases Nat.lt_trichotomy y.position x.position with hlt | heq | hgt
      · exact Or.inl hlt
      · refine Or.inr ⟨heq, ?_⟩
        by_contra hw
        exact hr (Or.inr ⟨heq.symm, le_of_not_le hw⟩)
      · exact absurd (Or.inl hgt) hr
    · intro x y z _ _ hr hs
      rcases hr with hr | hr
      · rcases hs with hs | hs
        · exact Or.inl (lt_trans hr hs)
        · exact Or.inl (hs.1 ▸ hr)
      · rcases hs with hs | hs
        · exact Or.inl (hr.1 ▸ hs)
        · exact Or.inr ⟨hr.1.trans hs.1, le_trans hs.2 hr.2⟩
    · exact List.pairwise_iff_forall_sublist.2 fun _ => trivial
  rw [h] at hpair
  rcases List.pairwise_cons.1 hpair with ⟨hhead, _⟩
  intro m hm
  have hm2 : m ∈ best :: rest := by
    rw [← h, sortedPhraseMatches]
    exact (List.mem_insertionSort _).2 hm
  rcases List.mem_cons.1 hm2 with heq | hm3
  · rw [heq]
    exact ⟨le_refl _, fun _ => le_refl _⟩
  · rcases hhead m hm3 with hc | hc
    · exact ⟨le_of_lt hc, fun he => absurd (he ▸ hc) (lt_irrefl _)⟩
    · exact ⟨le_of_eq hc.1, fun _ => hc.2⟩

section
attribute [local semireducible] Rat.ofScientific Rat.mul Rat.inv Rat.add Rat.sub

set_option maxRecDepth 20000 in
/-- C5: classifyPageIntent scans multi-word phrases first: when any phrase
matches, the result comes from the earliest-position phrase match (ties
broken by higher weight) with confidence = weight minus min(0.3,
wordPosition*0.05), floored at 0.3, rounded to 2 decimals; single-word
scanning happens only when no phrase matched, with the same penalty; the
query "landing page dashboard" classifies as intent "landing"; and when
nothing matches the result is intent unknown, confidence 0, with a warning
note. -/
theorem page_intent_contract :
    (∀ (q : String) (best : PhraseMatch) (rest : List PhraseMatch),
        sortedPhraseMatches (trimChars (lowerChars q.data)) = best :: rest →
          best ∈ phraseMatches (trimChars (lowerChars q.data))
          ∧ (∀ m ∈ phraseMatches (trimChars (lowerChars q.data)),
              best.position ≤ m.position
              ∧ (m.position = best.position → m.weight ≤ best.weight))
          ∧ classifyPageIntent q =
              ⟨best.intent,
               round2 (max 0.3 (best.weight - min 0.3
                 ((wordPosition (trimChars (lowerChars q.data)) best.position : ℚ) * 0.05))),
               some best.phrase,
               (wordPosition (trimChars (lowerChars q.data)) best.position : ℤ), []⟩)
    ∧ (∀ (q : String) (r : String × String × ℚ × ℕ),
        phraseMatches (trimChars (lowerChars q.data)) = [] →
        phase2Scan (((trimChars (lowerChars q.data)).splitOnP isWs).filter
          fun t => t ≠ []) = some r →
          classifyPageIntent q =
            ⟨r.1, round2 (max 0.3 (r.2.2.1 - min 0.3 ((r.2.2.2 : ℚ) * 0.05))),
             some r.2.1, (r.2.2.2 : ℤ), []⟩)
    ∧ (∀ q : String,
        phraseMatches (trimChars (lowerChars q.data)) = [] →
        phase2Scan (((trimChars (lowerChars q.data)).splitOnP isWs).filter
          fun t => t ≠ []) = none →
          classifyPageIntent q =
            ⟨"unknown", 0, none, -1, ["No page intent keywords detected in query"]⟩)
    ∧ classifyPageIntent "landing page dashboard" =
        ⟨"landing", 1, some "landing page", 0, []⟩ := by
  refine ⟨?_, ?_, ?_, by decide⟩
  · intro q best rest h
    rcases sortedPhraseMatches_head_min _ best rest h with ⟨h1, h2⟩
    refine ⟨h1, h2, ?_⟩
    rw [classifyPageIntent, h]
    rfl
  · intro q r hempty hscan
    rw [classifyPageIntent]
    have hs : sortedPhraseMatches (trimChars (lowerChars q.data)) = [] := by
      rw [sortedPhraseMatches, hempty]
      rfl
    rw [hs, hscan]
    rfl
  · intro q hempty hscan
    rw [classifyPageIntent]
    have hs : sortedPhraseMatches (trimChars (lowerChars q.data)) = [] := by
      rw [sortedPhraseMatches, hempty]
      rfl
    rw [hs, hscan]
    rfl

end

/-- PlatformBoostConfig (handlers.ts 2071-2078). -/
structure PlatformBoostConfig (α : Type) where
  boostFactor : α
  penaltyFactor : α
  enabled : Bool

/-- DEFAULT_PLATFORM_BOOST_CONFIG (handlers.ts 2081-2085). -/
def defaultPlatformBoostConfig {α : Type} [LinearOrderedField α] : PlatformBoostConfig α :=
  ⟨1.5, 0.5, true⟩

/-- One boostable result: a ghost id, the record's Platform_Support value
(none when the field is absent) and the score. -/
structure BoostResult (α : Type) where
  rid : ℕ
  platformSupport : Option String
  score : α
deriving DecidableEq

/-- The normalized Platform_Support tag of a result (handlers.ts 2128):
`(result.data['Platform_Support'] || 'web').toLowerCase().trim()` — an
absent or empty value falls back to "web". -/
def platformTag {α : Type} (r : BoostResult α) : String :=
  String.mk (trimChars (lowerChars
    (match r.platformSupport with
      | none => "web"
      | some s => if s = "" then "web" else s).data))

/-- applyPlatformBoost (handlers.ts 2101-2160): disabled, empty-platform or
empty-result calls pass through; otherwise each score is multiplied by the
platform/tag alignment factor and the list is re-sorted by adjusted score
descending (stable). -/
def applyPlatformBoost {α : Type} [LinearOrderedField α] (results : List (BoostResult α))
    (detectedPlatform : String) (config : PlatformBoostConfig α) : List (BoostResult α) :=
  if config.enabled = false then results
  else if detectedPlatform = "" ∨ results = [] then results
  else
    ((results.map fun r =>
        let ps := platformTag r
        let boost : α :=
          if detectedPlatform = "web" then
            if ps = "web" ∨ ps = "both" then config.boostFactor
            else if ps = "mobile" then config.penaltyFactor else 1
          else if containsSub detectedPlatform.data "mobile".data
              ∨ detectedPlatform = "mobile-ios" ∨ detectedPlatform = "mobile-android"
              ∨ detectedPlatform = "mobile-generic" then
            if ps = "mobile" ∨ ps = "both" then config.boostFactor
            else if ps = "web" then config.penaltyFactor else 1
          else if detectedPlatform = "cross-platform" then
            if ps = "both" then config.boostFactor
            else if ps = "mobile" then (1.2 : α) else 1
          else 1
        { r with score := r.score * boost }).insertionSort fun a b => b.score ≤ a.score)

/-- The boost factor as the claim words it, for the default configuration:
1.5 on a platform/tag match, 0.5 on a mismatch, and for a cross-platform
query 1.5 for tag both, 1.2 for tag mobile, 1.0 for tag web. -/
def claimBoostFactor {α : Type} [LinearOrderedField α] (platform tag : String) : α :=
  if platform = "cross-platform" then
    if tag = "both" then 1.5 else if tag = "mobile" then 1.2 else 1
  else if tag = "both" ∨ (platform = "web" ∧ tag = "web")
      ∨ (platform ≠ "web" ∧ tag = "mobile") then 1.5
  else 0.5

section
attribute [local semireducible] Rat.ofScientific Rat.mul Rat.inv Rat.add Rat.sub

set_option maxRecDepth 10000 in
/-- C6 counterexample: with tags web, mobile, both of EQUAL base score 0 and
detected platform mobile-ios, the boosted scores all stay 0 and the stable
sort keeps the original order, so the mobile-tagged result (rid 1) is NOT
placed above the web-tagged result (rid 0), contradicting the claim that
equal-base-score mobile/both results end up above web results. -/
theorem platform_boost_zero_counterexample :
    ¬ (((applyPlatformBoost
          [⟨0, some "web", (0 : ℚ)⟩, ⟨1, some "mobile", 0⟩, ⟨2, some "both", 0⟩]
          "mobile-ios" defaultPlatformBoostConfig).map fun r => r.rid).indexOf 1 <
        ((applyPlatformBoost
          [⟨0, some "web", (0 : ℚ)⟩, ⟨1, some "mobile", 0⟩, ⟨2, some "both", 0⟩]
          "mobile-ios" defaultPlatformBoostConfig).map fun r => r.rid).indexOf 0) := by
  decide

end

/-- C6 (amended): with the default configuration, applyPlatformBoost on any
detected platform among web, mobile-ios, mobile-android, mobile-generic and
cross-platform, over results whose tags normalize to web, mobile or both,
multiplies each score by the claimed alignment factor (match 1.5, mismatch
0.5, cross-platform 1.5/1.2/1.0) and re-sorts by the adjusted score; and
for results tagged web, mobile, both with equal POSITIVE base score and
detected platform mobile-ios, the boosted order places the mobile- and
both-tagged results above the web-tagged one. -/
theorem platform_boost_contract :
    (∀ (results : List (BoostResult ℚ)) (p : String),
        (p = "web" ∨ p = "mobile-ios" ∨ p = "mobile-android" ∨ p = "mobile-generic"
          ∨ p = "cross-platform") →
        (∀ r ∈ results, platformTag r = "web" ∨ platformTag r = "mobile"
          ∨ platformTag r = "both") →
        applyPlatformBoost results p defaultPlatformBoostConfig =
          ((results.map fun r =>
              { r with score := r.score * claimBoostFactor p (platformTag r) }).insertionSort
            fun a b => b.score ≤ a.score))
    ∧ (∀ s : ℚ, 0 < s →
        ((applyPlatformBoost
            [⟨0, some "web", s⟩, ⟨1, some "mobile", s⟩, ⟨2, some "both", s⟩]
            "mobile-ios" defaultPlatformBoostConfig).map fun r => r.rid) = [1, 2, 0]) := by
  constructor
  · intro results p hp htags
    rw [applyPlatformBoost]
    rw [if_neg (by rw [defaultPlatformBoostConfig]; simp)]
    by_cases hres : results = []
    · rw [if_pos (Or.inr hres), hres]
      simp
    · rw [if_neg (by
        push_neg
        refine ⟨?_, hres⟩
        rcases hp with rfl | rfl | rfl | rfl | rfl <;> simp)]
      congr 1
      apply List.map_congr_left
      intro r hr
      have hcfg1 : (defaultPlatformBoostConfig : PlatformBoostConfig ℚ).boostFactor = 1.5 := rfl
      have hcfg2 : (defaultPlatformBoostConfig : PlatformBoostConfig ℚ).penaltyFactor = 0.5 := rfl
      rcases hp with rfl | rfl | rfl | rfl | rfl <;>
        rcases htags r hr with ht | ht | ht <;>
          simp [ht, claimBoostFactor, hcfg1, hcfg2,
            (by decide : containsSub "mobile-ios".data "mobile".data = true),
            (by decide : containsSub "mobile-android".data "mobile".data = true),
            (by decide : containsSub "mobile-generic".data "mobile".data = true),
            (by decide : containsSub "cross-platform".data "mobile".data = false)]
  · intro s hs
    have h1 : ¬ (s * 1.5 ≤ s * 0.5) := by nlinarith
    rw [applyPlatformBoost]
    rw [if_neg (by rw [defaultPlatformBoostConfig]; simp)]
    rw [if_neg (by simp)]
    have htagw : platformTag (⟨0, some "web", s⟩ : BoostResult ℚ) = "web" := rfl
    have htagm : platformTag (⟨1, some "mobile", s⟩ : BoostResult ℚ) = "mobile" := rfl
    have htagb : platformTag (⟨2, some "both", s⟩ : BoostResult ℚ) = "both" := rfl
    have hb : (defaultPlatformBoostConfig : PlatformBoostConfig ℚ).boostFactor = 1.5 := rfl
    have hpf : (defaultPlatformBoostConfig : PlatformBoostConfig ℚ).penaltyFactor = 0.5 := rfl
    simp only [List.map_cons, List.map_nil, htagw, htagm, htagb]
    simp only [List.insertionSort, List.orderedInsert]
    simp [htagw, htagm, htagb, h1, hb, hpf,
      (by decide : containsSub "mobile-ios".data "mobile".data = true)]

/-- One unified-index search result inside searchAll: a ghost id, the
document's `type` tag (`result.document.data?.type`) and its score. -/
structure UnifiedResult (α : Type) where
  rid : ℕ
  rtype : Option String
  score : α
deriving DecidableEq

/-- Appending a result to its type's bucket in a JS Map (new keys go to the
end, insertion order is preserved). -/
def groupPush {α : Type} (m : List (String × List α)) (t : String) (r : α) :
    List (String × List α) :=
  match m with
  | [] => [(t, [r])]
  | (k, v) :: rest =>
      if k = t then (k, v ++ [r]) :: rest else (k, v) :: groupPush rest t r

/-- The grouping loop of searchAll strategy 2 (handlers.ts 1418-1430):
results of a target type go to their bucket, everything else to
otherResults, in input order. -/
def groupSplit {α : Type} (targetTypes : List String)
    (results : List (UnifiedResult α)) :
    List (String × List (UnifiedResult α)) × List (UnifiedResult α) :=
  results.foldl
    (fun acc r =>
      match r.rtype with
      | some t =>
          if t ∈ targetTypes then (groupPush acc.1 t r, acc.2) else (acc.1, acc.2 ++ [r])
      | none => (acc.1, acc.2 ++ [r]))
    ([], [])

/-- searchAll strategy 2 (handlers.ts 1412-1455): the multiple-domain branch
of the unified search, parametrized by the unified-index results, the
detected domains of confidence at least 0.5 and the validated maxResults.
Each detected domain gets ceil(resultsPerDomain * confidence) slots from
its bucket with resultsPerDomain = max(2, floor(maxResults/domainCount)),
positive remaining slots are filled from the non-matching results, and the
merged list is re-sorted by score (stable, descending) and truncated. -/
def searchAllMultiDomain {α : Type} [LinearOrderedField α]
    (results : List (UnifiedResult α)) (multipleDomains : List DomainMatch)
    (maxResults : ℕ) : List (UnifiedResult α) :=
  let targetTypes := multipleDomains.filterMap fun d => domainToTypeMap.lookup d.domain
  let resultsPerDomain : ℕ := max 2 (maxResults / multipleDomains.length)
  let grouped := groupSplit targetTypes results
  let balanced := multipleDomains.foldl
    (fun acc dm =>
      acc ++ (match domainToTypeMap.lookup dm.domain with
        | some ty =>
            ((grouped.1.lookup ty).getD []).take
              (⌈(resultsPerDomain : ℚ) * dm.confidence⌉.toNat)
        | none => []))
    []
  let filled :=
    if 0 < (maxResults : ℤ) - balanced.length then
      balanced ++ grouped.2.take ((maxResults : ℤ) - balanced.length).toNat
    else balanced
  (filled.insertionSort fun a b => b.score ≤ a.score).take maxResults

/-- The multiple-domain branch as the claim words it: each detected domain
is allocated exactly ceil((maxResults / domainCount) * confidence) slots
(real division) filled from its own partition of the results, remaining
slots up to maxResults are filled from the leftover non-matching results,
and the merged list is re-sorted by score before truncation. -/
def searchAllMultiDomainClaim {α : Type} [LinearOrderedField α]
    (results : List (UnifiedResult α)) (multipleDomains : List DomainMatch)
    (maxResults : ℕ) : List (UnifiedResult α) :=
  let targetTypes := multipleDomains.filterMap fun d => domainToTypeMap.lookup d.domain
  let balanced := multipleDomains.foldl
    (fun acc dm =>
      acc ++ (match domainToTypeMap.lookup dm.domain with
        | some ty =>
            (results.filter fun r => r.rtype = some ty).take
              (⌈((maxResults : ℚ) / (multipleDomains.length : ℚ)) * dm.confidence⌉.toNat)
        | none => []))
    []
  let leftover := results.filter fun r =>
    match r.rtype with
    | some t => decide (t ∉ targetTypes)
    | none => true
  let filled :=
    if 0 < (maxResults : ℤ) - balanced.length then
      balanced ++ leftover.take ((maxResults : ℤ) - balanced.length).toNat
    else balanced
  (filled.insertionSort fun a b => b.score ≤ a.score).take maxResults

/-- The multiple-domain branch as the amended claim words it: identical to
the claim except that a domain's slot count is
ceil(max(2, floor(maxResults / domainCount)) * confidence), matching the
integer arithmetic the code performs. -/
def searchAllMultiDomainAmended {α : Type} [LinearOrderedField α]
    (results : List (UnifiedResult α)) (multipleDomains : List DomainMatch)
    (maxResults : ℕ) : List (UnifiedResult α) :=
  let targetTypes := multipleDomains.filterMap fun d => domainToTypeMap.lookup d.domain
  let balanced := multipleDomains.foldl
    (fun acc dm =>
      acc ++ (match domainToTypeMap.lookup dm.domain with
        | some ty =>
            (results.filter fun r => r.rtype = some ty).take
              (⌈((max 2 (maxResults / multipleDomains.length) : ℕ) : ℚ) *
                dm.confidence⌉.toNat)
        | none => []))
    []
  let leftover := results.filter fun r =>
    match r.rtype with
    | some t => decide (t ∉ targetTypes)
    | none => true
  let filled :=
    if 0 < (maxResults : ℤ) - balanced.length then
      balanced ++ leftover.take ((maxResults : ℤ) - balanced.length).toNat
    else balanced
  (filled.insertionSort fun a b => b.score ≤ a.score).take maxResults

/-- Looking a bucket up after groupPush: the pushed key's bucket gains the
element at its end, every other bucket is unchanged. -/
theorem lookup_groupPush {α : Type} (t : String) (r : α) :
    ∀ (m : List (String × List α)) (ty : String),
      (groupPush m t r).lookup ty
        = if ty = t then some (((m.lookup t).getD []) ++ [r]) else m.lookup ty := by
  intro m
  induction m with
  | nil =>
    intro ty
    by_cases h : ty = t
    · simp [groupPush, List.lookup_cons, h]
    · have hb : (ty == t) = false := by simp [h]
      simp [groupPush, List.lookup_cons, h, hb]
  | cons kv rest ih =>
    intro ty
    obtain ⟨k, v⟩ := kv
    rw [groupPush]
    by_cases hk : k = t
    · rw [if_pos hk]
      by_cases hty : ty = k
      · simp [List.lookup_cons, hty, hk]
      · have hty2 : ¬ ty = t := hk ▸ hty
        have hb : (ty == k) = false := by simp [hty]
        simp [List.lookup_cons, hty2, hb]
    · rw [if_neg hk]
      by_cases hty : ty = k
      · have hty2 : ¬ ty = t := fun h => hk (hty ▸ h)
        have hb : (ty == k) = true := by simp [hty]
        simp [List.lookup_cons, hty2, hb]
      · have hb : (ty == k) = false := by simp [hty]
        have hkt : ¬ t = k := fun h => hk h.symm
        have hbt : (t == k) = false := by simp [hkt]
        by_cases hty2 : ty = t <;>
          simp [List.lookup_cons, hty2, ih, hb, hbt]

/-- The grouping loop's bucket for a target type is the filter of the input
by that type, in input order. -/
theorem groupSplit_go_lookup {α : Type} (tt : List String) (ty : String) (hty : ty ∈ tt) :
    ∀ (rs : List (UnifiedResult α)) (m : List (String × List (UnifiedResult α)))
      (others : List (UnifiedResult α)),
      (((rs.foldl
          (fun acc r =>
            match r.rtype with
            | some t =>
                if t ∈ tt then (groupPush acc.1 t r, acc.2) else (acc.1, acc.2 ++ [r])
            | none => (acc.1, acc.2 ++ [r]))
          (m, others)).1.lookup ty).getD []
        = ((m.lookup ty).getD []) ++ rs.filter fun r => r.rtype = some ty) := by
  intro rs
  induction rs with
  | nil => intro m others; simp
  | cons r rs ih =>
    intro m others
    rw [List.foldl_cons]
    cases hr : r.rtype with
    | none =>
      simp only [hr]
      rw [ih]
      simp [List.filter_cons, hr]
    | some t =>
      simp only [hr]
      by_cases htt : t ∈ tt
      · rw [if_pos htt, ih, lookup_groupPush]
        by_cases hteq : ty = t
        · rw [if_pos hteq]
          simp [List.filter_cons, hr, hteq, List.append_assoc]
        · rw [if_neg hteq]
          have hnety : ¬ (t = ty) := fun h => hteq h.symm
          simp [List.filter_cons, hr, hnety]
      · rw [if_neg htt, ih]
        have hne : ¬ (t = ty) := fun h => htt (h ▸ hty)
        simp [List.filter_cons, hr, hne]

/-- The grouping loop's otherResults are the non-target-typed inputs, in
input order. -/
theorem groupSplit_go_others {α : Type} (tt : List String) :
    ∀ (rs : List (UnifiedResult α)) (m : List (String × List (UnifiedResult α)))
      (others : List (UnifiedResult α)),
      ((rs.foldl
          (fun acc r =>
            match r.rtype with
            | some t =>
                if t ∈ tt then (groupPush acc.1 t r, acc.2) else (acc.1, acc.2 ++ [r])
            | none => (acc.1, acc.2 ++ [r]))
          (m, others)).2
        = others ++ rs.filter fun r =>
            match r.rtype with
            | some t => decide (t ∉ tt)
            | none => true) := by
  intro rs
  induction rs with
  | nil => intro m others; simp
  | cons r rs ih =>
    intro m others
    rw [List.foldl_cons]
    cases hr : r.rtype with
    | none =>
      simp only [hr]
      rw [ih]
      simp [List.filter_cons, hr, List.append_assoc]
    | some t =>
      simp only [hr]
      by_cases htt : t ∈ tt
      · rw [if_pos htt, ih]
        simp [List.filter_cons, hr, htt]
      · rw [if_neg htt, ih]
        simp [List.filter_cons, hr, htt, List.append_assoc]

/-- Folds appending pointwise-equal chunks agree. -/
theorem foldl_append_congr {β γ : Type} (g1 g2 : β → List γ) (l : List β)
    (h : ∀ b ∈ l, g1 b = g2 b) :
    ∀ acc : List γ,
      l.foldl (fun a b => a ++ g1 b) acc = l.foldl (fun a b => a ++ g2 b) acc := by
  induction l with
  | nil => intro acc; rfl
  | cons x xs ih =>
    intro acc
    rw [List.foldl_cons, List.foldl_cons, h x (by simp),
      ih (fun b hb => h b (by simp [hb]))]

/-- Congruence for the fill-sort-truncate tail of the multiple-domain merge. -/
theorem merge_shape_congr {α : Type} [LinearOrderedField α]
    (b1 b2 o1 o2 : List (UnifiedResult α)) (n : ℕ) (hb : b1 = b2) (ho : o1 = o2) :
    ((if 0 < (n : ℤ) - b1.length then
        b1 ++ o1.take ((n : ℤ) - b1.length).toNat else b1).insertionSort
      fun a b => b.score ≤ a.score).take n
    = ((if 0 < (n : ℤ) - b2.length then
        b2 ++ o2.take ((n : ℤ) - b2.length).toNat else b2).insertionSort
      fun a b => b.score ≤ a.score).take n := by
  rw [hb, ho]

/-- C3 (amended): the multiple-domain branch of searchAll allocates each
detected domain exactly ceil(max(2, floor(maxResults / domainCount)) *
confidence) slots from its own partition of the results, fills positive
remaining slots from the leftover non-matching results, and re-sorts the
merged list by score before truncating to maxResults — the code's
bucket-grouping merge equals the amended claim-side description. -/
theorem searchAllMultiDomain_eq_amended {α : Type} [LinearOrderedField α]
    (results : List (UnifiedResult α)) (multipleDomains : List DomainMatch)
    (maxResults : ℕ) :
    searchAllMultiDomain results multipleDomains maxResults
      = searchAllMultiDomainAmended results multipleDomains maxResults := by
  rw [searchAllMultiDomain, searchAllMultiDomainAmended]
  apply merge_shape_congr
  · apply foldl_append_congr
    intro dm hdm
    cases hlk : domainToTypeMap.lookup dm.domain with
    | none => rfl
    | some ty =>
      simp only
      have hty : ty ∈ multipleDomains.filterMap fun d => domainToTypeMap.lookup d.domain :=
        List.mem_filterMap.2 ⟨dm, hdm, hlk⟩
      rw [groupSplit, groupSplit_go_lookup _ ty hty results [] []]
      simp
  · rw [groupSplit, groupSplit_go_others _ results [] []]
    simp

section
attribute [local semireducible] Rat.ofScientific Rat.mul Rat.inv Rat.add Rat.sub

set_option maxRecDepth 20000 in
/-- C3 counterexample: with four results (two of type chart with scores 4
and 3, two of type color with scores 2 and 1), detected domains chart and
color both at confidence 0.6, and maxResults 3, the code allocates
ceil(max(2, floor(3/2)) * 0.6) = 2 slots per domain and returns 3 results,
while the claim's formula ceil((3/2) * 0.6) = 1 slot per domain would
return only 2 — the claim's allocation differs from the code's. -/
theorem multi_domain_slot_counterexample :
    searchAllMultiDomain
      [⟨0, some "chart", (4 : ℚ)⟩, ⟨1, some "chart", 3⟩, ⟨2, some "color", 2⟩,
       ⟨3, some "color", 1⟩]
      [⟨"chart", 0.6⟩, ⟨"color", 0.6⟩] 3 ≠
    searchAllMultiDomainClaim
      [⟨0, some "chart", (4 : ℚ)⟩, ⟨1, some "chart", 3⟩, ⟨2, some "color", 2⟩,
       ⟨3, some "color", 1⟩]
      [⟨"chart", 0.6⟩, ⟨"color", 0.6⟩] 3 := by
  decide

end

/-- DOMAIN_MAPPINGS (src/data/mappings.ts): trigger phrase to expansion
text, in source insertion order. -/
def domainMappings : List (String × String) :=
  [("crypto", "dashboard numbers metrics chart dark mode"),
   ("fintech", "pricing table trust security calculator data"),
   ("modern", "clean minimal bento gradient"),
   ("ecommerce", "gallery image search filter pricing plans reviews hero cart"),
   ("healthcare", "dashboard metrics table trust profile form clean medical"),
   ("education", "dashboard profile search gallery clean learning course"),
   ("realestate", "map location gallery image search filter property listing"),
   ("travel", "map location gallery image search filter reviews destination booking"),
   ("saas", "dashboard chart metrics pricing plans table modern analytics toggle dark mode theme switch scroll navigation footer utility back-to-top accessibility"),
   ("gaming", "dark mode social profile feed gallery modern stream immersive"),
   ("social", "feed profile social gallery search modern community chat"),
   ("news", "feed search bento clean modern image article trending"),
   ("portfolio", "gallery image profile clean modern bento showcase creative"),
   ("landing", "hero cta testimonials pricing features section toggle navigation header footer utility scroll dark-mode light-mode theme accessibility back-to-top"),
   ("dashboard", "analytics chart metrics kpi toggle dark mode theme panel sidebar navigation utility"),
   ("page", "landing hero section toggle dark mode navigation footer header utility accessibility"),
   ("security", "authentication password validation privacy alerts trust shield"),
   ("trust", "reviews testimonials badges secure verified"),
   ("analytics", "dashboard chart metrics table data visualization report"),
   ("onboarding", "form profile clean modern step guide welcome"),
   ("conversion", "pricing plans reviews trust hero cta signup"),
   ("hero", "hero-centric headline visual banner above-fold primary"),
   ("pricing", "pricing-focused plans tiers comparison subscription"),
   ("testimonials", "social-proof reviews trust badges authority"),
   ("features", "feature-grid benefits highlights showcase"),
   ("cta", "call-to-action button conversion signup"),
   ("website", "landing page hero cta testimonials features section"),
   ("web", "landing page hero cta section"),
   ("site", "landing page hero cta section"),
   ("homepage", "landing hero features cta testimonials pricing"),
   ("admin", "dashboard panel analytics metrics sidebar"),
   ("panel", "dashboard admin analytics metrics sidebar"),
   ("metrics", "dashboard analytics chart kpi data"),
   ("kpi", "dashboard metrics analytics chart data"),
   ("ios", "hig human interface guidelines iphone ipad sf symbols cupertino design system apple guidelines swiftui like mobile native"),
   ("platform", "ios hig human interface iphone ipad sf symbols cupertino apple design swiftui style android material flutter native mobile"),
   ("iphone", "ios mobile hig human interface guidelines apple native cupertino sf symbols"),
   ("ipad", "ios tablet hig human interface guidelines apple native cupertino sf symbols"),
   ("apple", "ios hig human interface guidelines iphone ipad sf symbols cupertino design system swiftui native"),
   ("cupertino", "ios apple hig human interface guidelines sf symbols iphone ipad flutter native"),
   ("hig", "ios apple human interface guidelines cupertino sf symbols design system native mobile"),
   ("ios style", "cupertino hig human interface sf symbols apple design flutter react-native without swift"),
   ("swiftui style", "ios cupertino hig sf symbols apple design flutter react-native"),
   ("cupertino style", "ios hig flutter react-native apple design sf symbols"),
   ("ios without swift", "cupertino flutter react-native ios style hig sf symbols"),
   ("ios flutter", "cupertino hig sf symbols apple design ios style cross-platform"),
   ("ios react native", "cupertino hig sf symbols apple design ios style cross-platform"),
   ("android", "material material design m3 material you google design jetpack compose kotlin ui dynamic color tonal elevation"),
   ("material", "android material design m3 material 3 material you google design dynamic color tonal elevation"),
   ("material 3", "android material design m3 material you google design jetpack compose dynamic color"),
   ("material design", "android m3 material 3 material you google design dynamic color tonal elevation"),
   ("m3", "android material material 3 material design material you google design dynamic color"),
   ("jetpack compose", "android material m3 kotlin ui compose google design native"),
   ("compose", "android jetpack compose kotlin ui material m3 google design native"),
   ("kotlin ui", "android jetpack compose compose material m3 google design native"),
   ("google design", "android material m3 material design material you dynamic color tonal elevation"),
   ("android hig", "material material design m3 material you google design jetpack compose"),
   ("material you", "android material m3 material design dynamic color personalization google design"),
   ("dynamic color", "android material you m3 material 3 personalization theming google design"),
   ("tonal elevation", "android material m3 surface elevation depth google design"),
   ("android style", "material m3 material design jetpack compose flutter react-native without kotlin"),
   ("material style", "android m3 material design flutter react-native google design"),
   ("android flutter", "material m3 material design android style cross-platform flutter"),
   ("android react native", "material m3 material design android style cross-platform react-native")]

/-- expandQuery (handlers.ts 466-488): append the expansion text of every
trigger key contained in the lowercased query, checking keys sorted by
length descending (stable for equal lengths). -/
def expandQuery (query : String) : String :=
  let lowerQuery := lowerChars query.data
  let sortedKeys := (domainMappings.map Prod.fst).insertionSort
    fun a b => b.length ≤ a.length
  sortedKeys.foldl
    (fun expanded key =>
      if containsSub lowerQuery key.data then
        match domainMappings.lookup key with
        | some value => expanded ++ " " ++ value
        | none => expanded
      else expanded)
    query

/-- ValidationResult (handlers.ts 456-462); the error is a value, never an
exception. -/
structure ValidationResult where
  valid : Bool
  query : String
  originalQuery : String
  maxResults : ℚ
  error : Option String
deriving DecidableEq

/-- JS Number.isInteger for the rational model of a JS number. -/
def isIntRat (q : ℚ) : Bool := q.den = 1

/-- validateSearchInput (handlers.ts 496-531): query must be present,
non-empty after trimming and at most 500 characters; a supplied maxResults
must be an integer between 1 and 50 (3 when absent); on success the result
carries the trimmed original query for display and the expanded query for
searching. -/
def validateSearchInput (query : Option String) (maxResults : Option ℚ) :
    ValidationResult :=
  match query with
  | none => ⟨false, "", "", 3, some "Query is required"⟩
  | some rawQuery =>
    let queryStr := String.mk (trimChars rawQuery.data)
    if queryStr.length = 0 then ⟨false, "", "", 3, some "Query cannot be empty"⟩
    else if 500 < queryStr.length then
      ⟨false, "", "", 3, some "Query exceeds maximum length of 500 characters"⟩
    else
      match maxResults with
      | none => ⟨true, expandQuery queryStr, queryStr, 3, none⟩
      | some m =>
        if isIntRat m = false then
          ⟨false, queryStr, queryStr, 3, some "max_results must be a positive integer"⟩
        else if m < 1 then
          ⟨false, queryStr, queryStr, 3, some "max_results must be at least 1"⟩
        else if 50 < m then
          ⟨false, queryStr, queryStr, 3, some "max_results cannot exceed 50"⟩
        else ⟨true, expandQuery queryStr, queryStr, m, none⟩

/-- C8: validateSearchInput returns an error value exactly when the query is
absent, trims to empty, exceeds 500 characters, or a supplied maxResults is
not an integer, is below 1 or above 50; otherwise it returns a valid result
carrying the trimmed query for display, the expanded query for searching
and the maxResults value (3 when absent). The error is a returned string
value (the function is total), never an exception. -/
theorem validate_search_input_contract (query : Option String) (maxResults : Option ℚ) :
    ((validateSearchInput query maxResults).error.isSome = true ↔
      query = none
      ∨ (∃ q, query = some q ∧ (String.mk (trimChars q.data)).length = 0)
      ∨ (∃ q, query = some q ∧ 500 < (String.mk (trimChars q.data)).length)
      ∨ (∃ m, maxResults = some m ∧ (isIntRat m = false ∨ m < 1 ∨ 50 < m)))
    ∧ ((validateSearchInput query maxResults).error = none →
        (validateSearchInput query maxResults).valid = true
        ∧ (∃ q, query = some q
            ∧ (validateSearchInput query maxResults).originalQuery
                = String.mk (trimChars q.data)
            ∧ (validateSearchInput query maxResults).query
                = expandQuery (String.mk (trimChars q.data)))
        ∧ (validateSearchInput query maxResults).maxResults = maxResults.getD 3)
    ∧ ((validateSearchInput query maxResults).valid = true ↔
        (validateSearchInput query maxResults).error = none) := by
  cases query with
  | none => simp [validateSearchInput]
  | some q =>
    by_cases h1 : (String.mk (trimChars q.data)).length = 0
    · have hval : validateSearchInput (some q) maxResults =
          ⟨false, "", "", 3, some "Query cannot be empty"⟩ := by
        simp only [validateSearchInput]
        rw [if_pos h1]
      simp [hval, h1]
      exact Or.inl (List.length_eq_zero.1 h1)
    · by_cases h2 : 500 < (String.mk (trimChars q.data)).length
      · have hval : validateSearchInput (some q) maxResults =
            ⟨false, "", "", 3, some "Query exceeds maximum length of 500 characters"⟩ := by
          simp only [validateSearchInput]
          rw [if_neg h1, if_pos h2]
        simp [hval, h1, h2]
        exact Or.inr (Or.inl h2)
      · cases maxResults with
        | none =>
          have hval : validateSearchInput (some q) none =
              ⟨true, expandQuery (String.mk (trimChars q.data)),
               String.mk (trimChars q.data), 3, none⟩ := by
            simp only [validateSearchInput]
            rw [if_neg h1, if_neg h2]
          simp [hval, h1, h2]
          exact ⟨fun h => h1 (by simp [h]), not_lt.1 h2⟩
        | some m =>
          by_cases h3 : isIntRat m = false
          · have hval : validateSearchInput (some q) (some m) =
                ⟨false, String.mk (trimChars q.data), String.mk (trimChars q.data), 3,
                 some "max_results must be a positive integer"⟩ := by
              simp only [validateSearchInput]
              rw [if_neg h1, if_neg h2, if_pos h3]
            simp [hval, h1, h2, h3]
          · by_cases h4 : m < 1
            · have hval : validateSearchInput (some q) (some m) =
                  ⟨false, String.mk (trimChars q.data), String.mk (trimChars q.data), 3,
                   some "max_results must be at least 1"⟩ := by
                simp only [validateSearchInput]
                rw [if_neg h1, if_neg h2, if_neg h3, if_pos h4]
              simp [hval, h1, h2, h3, h4]
            · by_cases h5 : 50 < m
              · have hval : validateSearchInput (some q) (some m) =
                    ⟨false, String.mk (trimChars q.data), String.mk (trimChars q.data), 3,
                     some "max_results cannot exceed 50"⟩ := by
                  simp only [validateSearchInput]
                  rw [if_neg h1, if_neg h2, if_neg h3, if_neg h4, if_pos h5]
                simp [hval, h1, h2, h3, h4, h5]
              · have hval : validateSearchInput (some q) (some m) =
                    ⟨true, expandQuery (String.mk (trimChars q.data)),
                     String.mk (trimChars q.data), m, none⟩ := by
                  simp only [validateSearchInput]
                  rw [if_neg h1, if_neg h2, if_neg h3, if_neg h4, if_neg h5]
                simp [hval, h1, h2, h3, h4, h5]
                exact ⟨fun h => h1 (by simp [h]), not_lt.1 h2⟩

/-- Every character of a splitOnP piece comes from the input and fails the
split predicate. -/
theorem splitOnP_chars (p : Char → Bool) :
    ∀ (l : List Char) (t : List Char), t ∈ l.splitOnP p → ∀ c ∈ t, c ∈ l ∧ p c = false := by
  intro l
  induction l with
  | nil =>
    intro t ht c hc
    rw [List.splitOnP_nil] at ht
    rcases List.mem_singleton.1 ht with rfl
    simp at hc
  | cons x xs ih =>
    intro t ht c hc
    rw [List.splitOnP_cons] at ht
    by_cases hx : p x
    · rw [if_pos hx] at ht
      rcases List.mem_cons.1 ht with rfl | ht2
      · simp at hc
      · rcases ih t ht2 c hc with ⟨h1, h2⟩
        exact ⟨by simp [h1], h2⟩
    · rw [if_neg hx] at ht
      obtain ⟨hd, tl, heq⟩ : ∃ hd tl, xs.splitOnP p = hd :: tl := by
        cases hsp : xs.splitOnP p with
        | nil => exact absurd hsp (List.splitOnP_ne_nil p xs)
        | cons a b => exact ⟨a, b, rfl⟩
      rw [heq, List.modifyHead_cons] at ht
      rcases List.mem_cons.1 ht with rfl | ht2
      · rcases List.mem_cons.1 hc with rfl | hc2
        · exact ⟨by simp, by simpa using hx⟩
        · rcases ih hd (by rw [heq]; simp) c hc2 with ⟨h1, h2⟩
          exact ⟨by simp [h1], h2⟩
      · rcases ih t (by rw [heq]; simp [ht2]) c hc with ⟨h1, h2⟩
        exact ⟨by simp [h1], h2⟩

/-- Splitting an intercalation of predicate-free nonempty-or-not pieces at a
separator that satisfies the predicate recovers the pieces. -/
theorem splitOnP_intercalate_sep (p : Char → Bool) (sep : Char) (hsep : p sep = true) :
    ∀ (ts : List (List Char)), ts ≠ [] → (∀ t ∈ ts, ∀ c ∈ t, p c = false) →
      (List.intercalate [sep] ts).splitOnP p = ts := by
  intro ts
  induction ts with
  | nil => intro h _; exact absurd rfl h
  | cons t rest ih =>
    intro _ hts
    cases rest with
    | nil =>
      have hone : List.intercalate [sep] [t] = t := by
        simp [List.intercalate]
      rw [hone]
      refine List.splitOnP_eq_single _ _ ?_
      intro y hy
      simp [hts t (by simp) y hy]
    | cons t2 rest2 =>
      have hi : List.intercalate [sep] (t :: t2 :: rest2)
          = t ++ sep :: List.intercalate [sep] (t2 :: rest2) := by
        simp [List.intercalate, List.intersperse_cons_cons]
      rw [hi]
      rw [List.splitOnP_first p t
        (fun y hy hP => by simp [hts t (by simp) y hy] at hP) sep hsep]
      rw [ih (by simp) fun t' ht' c hc => hts t' (by simp [ht']) c hc]

/-- A valid code point survives the Char.ofNat round trip. -/
theorem toNat_ofNat_valid (n : ℕ) (h : n.isValidChar) : (Char.ofNat n).toNat = n := by
  simp [Char.ofNat, Char.ofNatAux, Char.toNat, h, UInt32.toNat, BitVec.toNat_ofNatLt]

/-- Char.toLower never produces an ASCII uppercase letter. -/
theorem toLower_toNat_not_upper (c : Char) :
    ¬ (65 ≤ (Char.toLower c).toNat ∧ (Char.toLower c).toNat ≤ 90) := by
  rw [Char.toLower]
  by_cases h : c.toNat ≥ 65 ∧ c.toNat ≤ 90
  · rw [if_pos h]
    rw [toNat_ofNat_valid (c.toNat + 32) (Or.inl (by omega))]
    omega
  · rw [if_neg h]
    exact h

/-- Char.toLower fixes everything outside the ASCII uppercase range. -/
theorem toLower_fixed_of_not_upper (c : Char) (h : ¬ (65 ≤ c.toNat ∧ c.toNat ≤ 90)) :
    Char.toLower c = c := by
  rw [Char.toLower, if_neg h]

/-- Char.toLower is idempotent. -/
theorem toLower_idem (c : Char) : Char.toLower (Char.toLower c) = Char.toLower c :=
  toLower_fixed_of_not_upper _ (toLower_toNat_not_upper c)

/-- A character of an intercalation is the separator or belongs to a piece. -/
theorem mem_intercalate_sep (sep : Char) :
    ∀ (ts : List (List Char)) (c : Char), c ∈ List.intercalate [sep] ts →
      c = sep ∨ ∃ t ∈ ts, c ∈ t := by
  intro ts
  induction ts with
  | nil => intro c hc; simp [List.intercalate] at hc
  | cons t rest ih =>
    intro c hc
    cases rest with
    | nil =>
      have hone : List.intercalate [sep] [t] = t := by simp [List.intercalate]
      rw [hone] at hc
      exact Or.inr ⟨t, by simp, hc⟩
    | cons t2 rest2 =>
      have hi : List.intercalate [sep] (t :: t2 :: rest2)
          = t ++ sep :: List.intercalate [sep] (t2 :: rest2) := by
        simp [List.intercalate, List.intersperse_cons_cons]
      rw [hi] at hc
      rcases List.mem_append.1 hc with h | h
      · exact Or.inr ⟨t, by simp, h⟩
      · rcases List.mem_cons.1 h with rfl | h2
        · exact Or.inl rfl
        · rcases ih c h2 with h3 | ⟨t2, ht2, hct2⟩
          · exact Or.inl h3
          · exact Or.inr ⟨t2, by simp [ht2], hct2⟩

/-- Every token of tokenize is longer than one character and consists of
lowercase-stable non-whitespace word characters. -/
theorem tokenize_token_chars (x : String) :
    ∀ t ∈ tokenize x, 1 < t.length ∧ ∀ c ∈ t,
      isWordChar c = true ∧ isWs c = false ∧ Char.toLower c = c := by
  intro t ht
  rw [tokenize] at ht
  have hlen := List.of_mem_filter ht
  have ht2 := List.mem_of_mem_filter ht
  refine ⟨of_decide_eq_true hlen, ?_⟩
  intro c hc
  rcases splitOnP_chars isWs _ t ht2 c hc with ⟨hcrep, hcws⟩
  rcases List.mem_map.1 hcrep with ⟨c0, hc0, hceq⟩
  by_cases hcond : (isWordChar c0 || isWs c0) = true
  · rw [if_pos hcond] at hceq
    subst hceq
    rcases List.mem_map.1 hc0 with ⟨c1, _, hc1eq⟩
    have hlow : Char.toLower c0 = c0 := by
      rw [← hc1eq]
      exact toLower_idem c1
    have hword : isWordChar c0 = true := by
      rcases Bool.or_eq_true_iff.1 hcond with h | h
      · exact h
      · exact absurd h (by simp [hcws])
    exact ⟨hword, hcws, hlow⟩
  · rw [if_neg hcond] at hceq
    subst hceq
    exact absurd hcws (by decide)

/-- C10: tokenization is idempotent — joining the tokens of any string with
single spaces and tokenizing again yields the same token sequence. -/
theorem tokenize_idempotent (x : String) :
    tokenize (String.mk (List.intercalate [' '] (tokenize x))) = tokenize x := by
  have hmem := tokenize_token_chars x
  by_cases hts : tokenize x = []
  · rw [hts]
    decide
  · have hlow : lowerChars (List.intercalate [' '] (tokenize x))
        = List.intercalate [' '] (tokenize x) := by
      rw [lowerChars]
      refine (List.map_congr_left ?_).trans (List.map_id _)
      intro c hc
      rcases mem_intercalate_sep ' ' (tokenize x) c hc with rfl | ⟨t, ht, hct⟩
      · decide
      · exact ((hmem t ht).2 c hct).2.2
    have hrep : (List.intercalate [' '] (tokenize x)).map
        (fun c => if isWordChar c || isWs c then c else ' ')
        = List.intercalate [' '] (tokenize x) := by
      refine (List.map_congr_left ?_).trans (List.map_id _)
      intro c hc
      rcases mem_intercalate_sep ' ' (tokenize x) c hc with rfl | ⟨t, ht, hct⟩
      · simp
      · have h := (hmem t ht).2 c hct
        simp [h.1]
    have hsplit : (List.intercalate [' '] (tokenize x)).splitOnP isWs = tokenize x :=
      splitOnP_intercalate_sep isWs ' ' (by decide) (tokenize x) hts
        fun t ht c hc => ((hmem t ht).2 c hc).2.1
    have hfilter : (tokenize x).filter (fun t => 1 < t.length) = tokenize x := by
      rw [List.filter_eq_self]
      intro t ht
      exact decide_eq_true (hmem t ht).1
    have hstart : tokenize (String.mk (List.intercalate [' '] (tokenize x)))
        = (((lowerChars (List.intercalate [' '] (tokenize x))).map
            (fun c => if isWordChar c || isWs c then c else ' ')).splitOnP isWs).filter
          (fun t => 1 < t.length) := rfl
    rw [hstart, hlow, hrep, hsplit, hfilter]
